import Mathlib

/-!
Verification of the pyinstailor repack tool (src/pyinstailor.py).

The development shallowly embeds the program: byte strings are lists of
naturals, files are passed as explicit values, Python dictionaries are
association lists with unique keys, and fallible code returns Option or
Except.  External collaborators of the repository (the PyInstaller inner
and outer archive codecs, the bytecode compiler / marshaller and zlib)
are modelled from the specification; such definitions carry a doc
comment beginning with "Modelled from the spec".
-/

set_option autoImplicit false

namespace Pyinstailor

/-- Byte strings; each cell holds one byte value. -/
abbrev Bytes := List Nat

/-- Bytes of a string, one cell per character code. -/
def strBytes (s : String) : Bytes := s.toList.map Char.toNat

/-- String rebuilt from character codes. -/
def bytesToStr (b : Bytes) : String := String.mk (b.map Char.ofNat)

/-- Boolean test that string s ends with suff, computed on character lists. -/
def strEndsWithL (s suff : String) : Bool :=
  let a := s.toList
  let b := suff.toList
  a.drop (a.length - b.length) == b

/-- String with the last n characters removed; used for Python name[:-len(suffix)]. -/
def strDropRightL (s : String) (n : Nat) : String :=
  String.mk (s.toList.take (s.toList.length - n))

/-- Python str.strip with argument a dot: removes leading and trailing dots. -/
def pyStripDots (s : String) : String :=
  String.mk (((s.toList.dropWhile (fun c => c == '.')).reverse.dropWhile
    (fun c => c == '.')).reverse)

/-- Splits a character list on a separator character, keeping empty pieces,
as Python str.split does. -/
def splitCh (sep : Char) : List Char → List (List Char)
  | [] => [[]]
  | c :: rest =>
    let r := splitCh sep rest
    if c == sep then [] :: r
    else
      match r with
      | [] => [[c]]
      | h :: t => (c :: h) :: t

/-- Python s.split(sep) for a one-character separator. -/
def pySplitOn (s : String) (sep : Char) : List String :=
  (splitCh sep s.toList).map String.mk

/-- Joins strings with a separator, as Python sep.join does. -/
def joinSep (sep : String) : List String → String
  | [] => ""
  | [x] => x
  | x :: xs => x ++ sep ++ joinSep sep xs

/-- Python str.find for a one-character needle: index of the first
occurrence, or -1 when absent. -/
def findIdxCh : List Char → Char → Nat → Int
  | [], _, _ => -1
  | x :: rest, c, i => if x == c then (i : Int) else findIdxCh rest c (i + 1)

/-- Python filename.find(os.pathsep) with the posix path separator, a colon. -/
def pyFindColon (s : String) : Int := findIdxCh s.toList ':' 0

/-- One step of the component normalisation loop of os.path.normpath. -/
def normStep (isAbs : Bool) (acc : List String) (c : String) : List String :=
  if c == ".." then
    match acc.getLast? with
    | none => if isAbs then [] else [".."]
    | some l => if l == ".." then acc ++ [".."] else acc.dropLast
  else acc ++ [c]

/-- Modelled from the spec: os.path.normpath (posix rules) used by the
patch resolver; collapses empty and dot components and resolves parent
references, keeping leading parent references of relative paths. -/
def normpath (p : String) : String :=
  if p == "" then "." else
  let cs := p.toList
  let isAbs : Bool :=
    match cs with
    | c :: _ => c == '/'
    | [] => false
  let comps := ((splitCh '/' cs).map String.mk).filter
    (fun c => !(c == "") && !(c == "."))
  let outComps := comps.foldl (normStep isAbs) []
  let body := joinSep "/" outComps
  let res := if isAbs then "/" ++ body else body
  if res == "" then "." else res

/-- Python list slicing l[i:] with a possibly negative start index. -/
def pySliceFrom (l : List String) (i : Int) : List String :=
  if 0 ≤ i then l.drop i.toNat
  else l.drop (max ((l.length : Int) + i) 0).toNat

/-- Python list indexing l[i] for a negative index; an out of range index
is modelled by the empty string (the source would raise IndexError, a
case no claim exercises). -/
def pyNegIndex (l : List String) (i : Int) : String :=
  l.getD ((l.length : Int) + i).toNat ""

/-- Suffix stripping loop of build_updated_items, source lines 279-281:
for each suffix in (".py", "__init__.py"), in that order, if the current
name ends with the suffix, drop it and strip surrounding dots. -/
def stripSuffixLoop (name : String) : String :=
  let n1 := if strEndsWithL name ".py" then pyStripDots (strDropRightL name 3) else name
  if strEndsWithL n1 "__init__.py" then pyStripDots (strDropRightL n1 11) else n1

/-- Logical name derivation of build_updated_items, source lines 273-281,
applied to the normalised path: split on the path separator, select
components by the strip argument (Python None keeps the last component,
or the second to last for a package init file), join with dots, then run
the suffix stripping loop. -/
def deriveName (pathnm : String) (strip : Option Int) : String :=
  let namelist := pySplitOn pathnm '/'
  let name :=
    match strip with
    | none => pyNegIndex namelist (if strEndsWithL pathnm "__init__.py" then -2 else -1)
    | some s => joinSep "." (pySliceFrom namelist s)
  stripSuffixLoop name

/-- One iteration of the build_updated_items loop, source lines 268-282:
yields the (name, path) pair inserted into the items dictionary.  When
the argument contains a colon after position zero the name is the part
before the first colon and the stored path is the normalised whole
argument, exactly as the source computes it. -/
def buildItem (filename : String) (strip : Option Int) : String × String :=
  if 0 < pyFindColon filename then
    (String.mk (filename.toList.takeWhile (fun x => !(x == ':'))), normpath filename)
  else
    let pathnm := normpath filename
    (deriveName pathnm strip, pathnm)

/-- Python dictionary assignment items[k] = v on an association list:
overwrites in place when the key exists, else appends. -/
def dictInsert (l : List (String × String)) (k v : String) : List (String × String) :=
  if l.any (fun p => p.1 == k) then l.map (fun p => if p.1 == k then (k, v) else p)
  else l ++ [(k, v)]

/-- The dictionary built by the loop body of build_updated_items,
source lines 267-282. -/
def buildItemsLoop (files : List String) (strip : Option Int) : List (String × String) :=
  files.foldl (fun items filename =>
    let p := buildItem filename strip
    dictInsert items p.1 p.2) []

/-- Embedding of build_updated_items, source lines 266-282: the body
builds a local dictionary but the function has no return statement, so
its value is Python None, modelled as Option.none. -/
def build_updated_items (files : List String) (strip : Option Int) :
    Option (List (String × String)) :=
  let _items := buildItemsLoop files strip
  none

/-- Big endian unsigned integer of a byte list. -/
def beNat (b : Bytes) : Nat := b.foldl (fun a x => a * 256 + x) 0

/-- Big endian signed 32 bit integer, as struct.unpack with format i reads it. -/
def beInt32 (b : Bytes) : Int :=
  let n := beNat b
  if n < 2 ^ 31 then (n : Int) else (n : Int) - 2 ^ 32

/-- Embedding of get_carchive_info, source lines 114-128: reads the 88
byte cookie at the end of the file, decodes the package length as a
signed big endian 32 bit integer at offset 8 of the cookie, and returns
the package start position (file size minus package length) together
with the embedded library name field.  A file shorter than the cookie
makes the seek fail, modelled as none. -/
def get_carchive_info (file : Bytes) : Option (Int × Bytes) :=
  if 88 ≤ file.length then
    let cookie := file.drop (file.length - 88)
    let lop := beInt32 ((cookie.drop 8).take 4)
    let pylibname := (cookie.drop 24).take 64
    some ((file.length : Int) - lop, pylibname)
  else none

/-- Modelled from the spec: a fixed deflate compression of the external
zlib collaborator, treated as an injective coding that prepends the two
zlib stream header bytes; inflation inverts it. -/
def zlibDeflate (d : Bytes) : Bytes := 120 :: 218 :: d

/-- Modelled from the spec: inflation, the inverse of zlibDeflate. -/
def zlibInflate (d : Bytes) : Option Bytes :=
  match d with
  | 120 :: 218 :: rest => some rest
  | _ => none

/-- Modelled from the spec: a compiled code object, the serialized
executable representation produced by the external compiler collaborator
from source text and a display filename. -/
inductive CodeObj where
  | compiled (source : Bytes) (filename : String)
  deriving DecidableEq

/-- Modelled from the spec: marshal serialization of a code object; a
self describing injective coding. -/
def marshalDumps : CodeObj → Bytes
  | .compiled src fn => (src.length :: src) ++ ((strBytes fn).length :: strBytes fn)

/-- Modelled from the spec: marshal deserialization, inverse of
marshalDumps on its image. -/
def marshalLoads (b : Bytes) : Option CodeObj :=
  match b with
  | n :: rest =>
    if n ≤ rest.length then
      match rest.drop n with
      | m :: rest2 =>
        if m = rest2.length then some (.compiled (rest.take n) (bytesToStr rest2))
        else none
      | [] => none
    else none
  | [] => none

/-- Magic bytes of the inner PYZ container. -/
def PYZ_MAGIC : Bytes := [80, 89, 90, 0]

/-- Version tag written by the inner codec writer of the running
interpreter. -/
def pymagicCurrent : Bytes := [97, 13, 13, 10]

/-- Inner entry type code for an ordinary module. -/
def PYZ_TYPE_MODULE : Nat := 0

/-- Inner entry type code for a package, imported from
pyimod02_archive in the source. -/
def PYZ_TYPE_PKG : Nat := 1

/-- Modelled from the spec: one entry of the inner archive index: a
name, an is-package type code and the compressed serialized payload. -/
structure PyzEntry where
  name : String
  typ : Nat
  data : Bytes
  deriving DecidableEq

/-- Modelled from the spec: a decoded inner archive: the embedded
version tag and the ordered name indexed entries. -/
structure PyzArchive where
  pymagic : Bytes
  entries : List PyzEntry
  deriving DecidableEq

/-- Modelled from the spec: byte encoding of one inner index entry,
self describing with length cells. -/
def encodePyzEntry (e : PyzEntry) : Bytes :=
  ((strBytes e.name).length :: strBytes e.name) ++ (e.typ :: e.data.length :: e.data)

/-- Modelled from the spec: byte encoding of a whole inner archive:
magic, version tag, entry count, then the entries. -/
def encodePyz (a : PyzArchive) : Bytes :=
  PYZ_MAGIC ++ a.pymagic ++ (a.entries.length :: (a.entries.map encodePyzEntry).flatten)

/-- Modelled from the spec: decoder for one inner index entry, returning
the entry and the remaining bytes. -/
def decodePyzEntry (b : Bytes) : Option (PyzEntry × Bytes) :=
  match b with
  | ln :: rest =>
    if ln ≤ rest.length then
      match rest.drop ln with
      | typ :: dl :: rest2 =>
        if dl ≤ rest2.length then
          some (⟨bytesToStr (rest.take ln), typ, rest2.take dl⟩, rest2.drop dl)
        else none
      | _ => none
    else none
  | [] => none

/-- Modelled from the spec: decoder for a counted sequence of inner
index entries; all bytes must be consumed. -/
def decodePyzEntries : Nat → Bytes → Option (List PyzEntry)
  | 0, [] => some []
  | 0, _ => none
  | n + 1, b =>
    match decodePyzEntry b with
    | none => none
    | some (e, rest) =>
      match decodePyzEntries n rest with
      | none => none
      | some es => some (e :: es)

/-- Modelled from the spec together with the checkmagic override of
ZlibArchive, source lines 62-75: a wrong magic is a fatal error (none),
while a version tag different from the running interpreter is only a
logged warning, so any four tag bytes are accepted. -/
def decodePyz (b : Bytes) : Option PyzArchive :=
  if b.take 4 = PYZ_MAGIC then
    let pm := (b.drop 4).take 4
    if pm.length = 4 then
      match b.drop 8 with
      | n :: rest =>
        match decodePyzEntries n rest with
        | none => none
        | some es => some ⟨pm, es⟩
      | [] => none
    else none
  else none

/-- Names of the entries of the inner archive stored in the given bytes;
empty when the bytes do not decode. -/
def pyzNamesOf (stored : Bytes) : List String :=
  match decodePyz stored with
  | none => []
  | some parch => parch.entries.map (fun e => e.name)

/-- Python dictionary lookup items[n] on an association list. -/
def lookupItem (items : List (String × Bytes)) (n : String) : Option Bytes :=
  (items.find? (fun p => p.1 == n)).map Prod.snd

/-- Python dictionary items.pop(n) on an association list with unique
keys: removes the binding of n. -/
def popItem (items : List (String × Bytes)) (n : String) : List (String × Bytes) :=
  items.filter (fun p => !(p.1 == n))

/-- Modelled from the spec: on demand extraction of one inner entry:
inflate the stored bytes and deserialize the code object, returning the
type code with it, as arch.extract does. -/
def pyzExtract (e : PyzEntry) : Option (Nat × CodeObj) :=
  match zlibInflate e.data with
  | none => none
  | some d =>
    match marshalLoads d with
    | none => none
    | some c => some (e.typ, c)

/-- Logical path recorded for one inner entry in the rebuilt table,
source line 154: package entries resolve to the init file name. -/
def pyzPathname (typ : Nat) (name : String) : String :=
  if typ = PYZ_TYPE_PKG then "__init__.py" else name

/-- Embedding of the extraction and replacement loop of repack_pyz,
source lines 144-155: for each inner entry in order, extract it; when
its name is bound in the shared patch mapping, compile the replacement
source under the display name of the entry, remove the name from the
mapping and count the update, otherwise keep the extracted code object.
Returns the rebuilt logical table (name, pathname, code), the remaining
mapping and the update count; an extraction failure aborts (none). -/
def repackPyzLoop : List PyzEntry → List (String × Bytes) →
    Option (List (String × String × CodeObj) × List (String × Bytes) × Nat)
  | [], items => some ([], items, 0)
  | e :: rest, items =>
    match pyzExtract e with
    | none => none
    | some (typ, obj) =>
      match lookupItem items e.name with
      | some src =>
        match repackPyzLoop rest (popItem items e.name) with
        | none => none
        | some (tl, its, u) =>
          some ((e.name, pyzPathname typ e.name,
            CodeObj.compiled src ("<" ++ e.name ++ ">")) :: tl, its, u + 1)
      | none =>
        match repackPyzLoop rest items with
        | none => none
        | some (tl, its, u) =>
          some ((e.name, pyzPathname typ e.name, obj) :: tl, its, u)

/-- Modelled from the spec: one entry written by the inner codec writer:
the is-package type is derived from the logical path and the payload is
the deflated serialized code object. -/
def zlibWriterEntry (t : String × String × CodeObj) : PyzEntry :=
  ⟨t.1, if t.2.1 == "__init__.py" then PYZ_TYPE_PKG else PYZ_TYPE_MODULE,
    zlibDeflate (marshalDumps t.2.2)⟩

/-- Modelled from the spec: the inner codec writer: serializes, deflates
and writes each code object of the logical table in order and emits the
header with the version tag of the running interpreter. -/
def zlibArchiveWriter (tl : List (String × String × CodeObj)) : Bytes :=
  encodePyz ⟨pymagicCurrent, tl.map zlibWriterEntry⟩

/-- Result of repack_pyz: the rewritten inner archive file bytes, the
remaining patch mapping and the count of replaced entries. -/
structure PyzRepackResult where
  fileBytes : Bytes
  items : List (String × Bytes)
  updated : Nat
  deriving DecidableEq

/-- Embedding of repack_pyz, source lines 131-160: decode the inner
archive from the file bytes (a bad magic is fatal), run the replacement
loop, rewrite the file with the inner codec writer and return the update
count; the default empty cipher of the source is kept implicit. -/
def repack_pyz (fileBytes : Bytes) (items : List (String × Bytes)) :
    Option PyzRepackResult :=
  (decodePyz fileBytes).bind (fun arch =>
    (repackPyzLoop arch.entries items).map
      (fun t3 => ⟨zlibArchiveWriter t3.1, t3.2.1, t3.2.2⟩))

/-- Embedding of the byte splice branch of repack_exe, source lines
176-186: the output starts as a copy of the original executable, the
file cursor is placed at the package start offset obtained from
get_carchive_info, the new package bytes are written and the file is
truncated there.  A write position past the end of the copy produces a
zero filled gap, as a file seek past the end does; a negative position
makes the seek fail, modelled as none. -/
def repack_exe_splice (output : Bytes) (pkg : Bytes) : Option Bytes :=
  match get_carchive_info output with
  | none => none
  | some (pos, _) =>
    if 0 ≤ pos then
      some (output.take pos.toNat ++ List.replicate (pos.toNat - output.length) 0 ++ pkg)
    else none

/-- One outer table of contents entry as CArchiveReader yields it,
source line 210: data offset, stored length, uncompressed length,
compression flag, type code and name. -/
structure TocEntry where
  dpos : Nat
  dlen : Nat
  ulen : Nat
  flag : Nat
  typcd : Char
  nm : String
  deriving DecidableEq

/-- Modelled from the spec: the outer archive as the reader presents it:
the underlying file bytes, the package start offset and the decoded
table of contents. -/
structure CArchive where
  lib : Bytes
  pkgStart : Nat
  toc : List TocEntry
  deriving DecidableEq

/-- Stored bytes of one outer entry, as the extraction in repacker reads
them, source lines 214-216: seek to pkg_start + dpos and read dlen
bytes. -/
def readStored (a : CArchive) (e : TocEntry) : Bytes :=
  (a.lib.drop (a.pkgStart + e.dpos)).take e.dlen

/-- Test of source line 218 selecting the inner archive branch: the name
ends in ".pyz" and the type code is z or Z. -/
def isPyzEntry (e : TocEntry) : Bool :=
  strEndsWithL e.nm ".pyz" && (e.typcd == 'z' || e.typcd == 'Z')

/-- One annotated entry of logic_toc, source line 226: the patched
marker (the source stores the repack_pyz update count here), the
original lengths, flag, type code and name, and the bytes of the file
the writer will read for this entry. -/
structure AnnEntry where
  patched : Nat
  dlen : Nat
  ulen : Nat
  flag : Nat
  typcd : Char
  nm : String
  content : Bytes
  deriving DecidableEq

/-- Embedding of the extraction loop of repacker, source lines 208-226,
threading the shared patch mapping: an inner archive entry is extracted
and rewritten by repack_pyz (its updated count becomes the patched
marker and the rewritten bytes become the entry content, and the mapping
mutations persist); otherwise a name bound in the mapping marks the
entry patched with the replacement file as content; otherwise the entry
is unpatched with its stored bytes as content. -/
def repackerLoop (a : CArchive) : List TocEntry → List (String × Bytes) →
    Option (List AnnEntry)
  | [], _ => some []
  | e :: rest, items =>
    let stored := readStored a e
    if isPyzEntry e then
      match repack_pyz stored items with
      | none => none
      | some r =>
        match repackerLoop a rest r.items with
        | none => none
        | some l => some (⟨r.updated, e.dlen, e.ulen, e.flag, e.typcd, e.nm, r.fileBytes⟩ :: l)
    else
      match lookupItem items e.nm with
      | some c =>
        match repackerLoop a rest items with
        | none => none
        | some l => some (⟨1, e.dlen, e.ulen, e.flag, e.typcd, e.nm, c⟩ :: l)
      | none =>
        match repackerLoop a rest items with
        | none => none
        | some l => some (⟨0, e.dlen, e.ulen, e.flag, e.typcd, e.nm, stored⟩ :: l)

/-- Embedding of repacker, source lines 197-232: builds the annotated
table over the whole outer table of contents.  The replacement mapping
carries the bytes of each replacement file in place of its path. -/
def repacker (a : CArchive) (items : List (String × Bytes)) : Option (List AnnEntry) :=
  repackerLoop a a.toc items

/-- Replacement data the writer computes for a patched entry, source
lines 94-101: script and module entries are compiled under the display
name of the entry and serialized; other types keep the raw file
bytes. -/
def patchData (e : AnnEntry) : Bytes :=
  if e.typcd = 's' ∨ e.typcd = 'M' then
    marshalDumps (.compiled e.content ("<" ++ e.nm ++ ">"))
  else e.content

/-- One written outer entry: its new table record and the bytes appended
to the package. -/
structure WrittenEntry where
  toce : TocEntry
  bytes : Bytes
  deriving DecidableEq

/-- Embedding of CArchiveWriter2.add, source lines 80-111, at write
position pos: read the entry content; when the entry is marked patched
(a nonzero marker, since the source tests Python truthiness of the
count) recompute the data and the uncompressed length; deflate exactly
when the compression flag is one and the entry is patched; record the
new stored length and reuse the original uncompressed length for
unpatched entries. -/
def CArchiveWriter2_add (pos : Nat) (e : AnnEntry) : WrittenEntry :=
  let pair :=
    if e.patched ≠ 0 then (patchData e, (patchData e).length)
    else (e.content, e.ulen)
  let written := if e.flag = 1 ∧ e.patched ≠ 0 then zlibDeflate pair.1 else pair.1
  ⟨⟨pos, written.length, pair.2, e.flag, e.typcd, e.nm⟩, written⟩

/-- Sequential writing of all annotated entries, each at the position
following the previous payload, as the base writer drives add. -/
def carchiveWrite : Nat → List AnnEntry → List WrittenEntry
  | _, [] => []
  | pos, e :: rest =>
    let w := CArchiveWriter2_add pos e
    w :: carchiveWrite (pos + w.bytes.length) rest

/-- The repack pipeline from an outer archive and a patch mapping to the
written package entries: repacker followed by the outer writer. -/
def runRepack (a : CArchive) (items : List (String × Bytes)) :
    Option (List WrittenEntry) :=
  match repacker a items with
  | none => none
  | some l => some (carchiveWrite 0 l)

/-- A Python value as far as the excepthook inspects one: a string, a
class named by its identifier, or anything else. -/
inductive PyVal where
  | pstr (s : String)
  | ptype (t : String)
  | pother
  deriving DecidableEq

/-- An exception value: the args tuple carried by every Python
exception. -/
structure PyExc where
  args : List PyVal
  deriving DecidableEq

/-- Observable outcome of the excepthook: it either raises on its own
(TypeError from a bad isinstance second argument, IndexError from an
empty args tuple) or logs one line and exits with status one. -/
inductive HookOutcome where
  | raisedTypeError
  | raisedIndexError
  | logsArgsThenExit1
  | logsValueThenExit1
  deriving DecidableEq

/-- Embedding of excepthook, source lines 285-290: the guard evaluates
isinstance(str, value.args[0]), so an empty args tuple raises
IndexError, a first argument that is not a class raises TypeError, and
only when the first argument is a class does the hook log (the args
when str is an instance of that class, else the value) and exit with
status one. -/
def excepthook (value : PyExc) : HookOutcome :=
  match value.args with
  | [] => .raisedIndexError
  | a :: _ =>
    match a with
    | .pstr _ => .raisedTypeError
    | .pother => .raisedTypeError
    | .ptype t =>
      if t == "type" || t == "object" then .logsArgsThenExit1
      else .logsValueThenExit1

/-- Parsed command line of main, source lines 294-307. -/
structure CliArgs where
  debug : Bool
  strip : Int
  executable : String
  files : Option String
  deriving DecidableEq

/-- Integer literal parser standing in for the argparse int type. -/
def parseDigits : List Char → Nat → Option Nat
  | [], acc => some acc
  | c :: rest, acc =>
    let n := c.toNat
    if 48 ≤ n && n ≤ 57 then parseDigits rest (acc * 10 + (n - 48)) else none

/-- Python int(s) on a decimal literal with an optional leading minus. -/
def pyToInt (s : String) : Option Int :=
  match s.toList with
  | [] => none
  | '-' :: rest =>
    match rest with
    | [] => none
    | _ =>
      match parseDigits rest 0 with
      | none => none
      | some n => some (-(n : Int))
  | l =>
    match parseDigits l 0 with
    | none => none
    | some n => some ((n : Int))

/-- Option scanning loop of the argument parser: collects the debug
flag, the strip value and the positional arguments. -/
def parseCliLoop : List String → Bool → Int → List String →
    Except String (Bool × Int × List String)
  | [], d, s, pos => Except.ok (d, s, pos)
  | a :: rest, d, s, pos =>
    if a == "-d" || a == "--debug" then parseCliLoop rest true s pos
    else if a == "-s" || a == "--strip" then
      match rest with
      | [] => Except.error "argument -s/--strip: expected one argument"
      | v :: rest2 =>
        match pyToInt v with
        | none => Except.error "argument -s/--strip: invalid int value"
        | some n => parseCliLoop rest2 d n pos
    else parseCliLoop rest d s (pos ++ [a])

/-- Embedding of the argparse configuration of main, source lines
294-309: debug defaults to false, strip to zero; the executable
positional is required and the files positional takes at most one value
(nargs is the question mark), any further positional is rejected. -/
def parseCli (argv : List String) : Except String CliArgs :=
  match parseCliLoop argv false 0 [] with
  | Except.error m => Except.error m
  | Except.ok (d, s, pos) =>
    match pos with
    | [] => Except.error "the following arguments are required: executable"
    | [exe] => Except.ok ⟨d, s, exe, none⟩
    | [exe, f] => Except.ok ⟨d, s, exe, some f⟩
    | _ => Except.error "unrecognized arguments"

/-- Observable action main takes after parsing, source lines 309-321. -/
inductive MainAction where
  | exitArgError (msg : String)
  | listArchive (exe : String)
  | crashAttributeError (exe : String)
  | patchRun (exe : String) (items : List (String × String))
  deriving DecidableEq

/-- Python iteration over a string yields its one character strings;
main passes the single files argument, a string, to
build_updated_items, whose loop iterates it this way. -/
def pyIterStr (s : String) : List String := s.toList.map (fun c => String.mk [c])

/-- Embedding of main, source lines 309-321: an argument error exits
through the parser; with no files value the archive is listed; with a
files value build_updated_items is called and, since it returns None,
the following items.keys() call raises AttributeError before any
repacking. -/
def mainModel (argv : List String) : MainAction :=
  match parseCli argv with
  | Except.error m => .exitArgError m
  | Except.ok a =>
    match a.files with
    | none => .listArchive a.executable
    | some f =>
      match build_updated_items (pyIterStr f) (some a.strip) with
      | none => .crashAttributeError a.executable
      | some its => .patchRun a.executable its

/-- A concrete inner archive file whose version tag differs from the
running interpreter and which holds no entries. -/
def pyzOld : Bytes := encodePyz ⟨[0, 0, 13, 10], []⟩

/-- The bytes the inner codec writer produces for an empty entry set. -/
def pyzNew : Bytes := encodePyz ⟨pymagicCurrent, []⟩

/-- Outer table entry describing pyzOld stored at offset zero. -/
def pyzTocE : TocEntry := ⟨0, 9, 9, 0, 'z', "x.pyz"⟩

/-- A concrete outer archive whose only entry is the inner archive
pyzOld. -/
def cArchPyz : CArchive := ⟨pyzOld, 0, [pyzTocE]⟩

/-- A concrete code object stored in an inner archive. -/
def innerFooCode : CodeObj := .compiled [9, 9] "m"

/-- A concrete inner entry named foo. -/
def pyzFooEntry : PyzEntry := ⟨"foo", 0, zlibDeflate (marshalDumps innerFooCode)⟩

/-- A concrete inner archive file holding the single entry foo. -/
def pyzFooBytes : Bytes := encodePyz ⟨pymagicCurrent, [pyzFooEntry]⟩

/-- A patch mapping binding the name foo to a replacement source. -/
def items10 : List (String × Bytes) := [("foo", [104])]

/-- The repack_pyz result on pyzFooBytes with items10: foo is replaced,
the mapping is emptied and one update is counted. -/
def r10 : PyzRepackResult :=
  ⟨zlibArchiveWriter [("foo", "foo", CodeObj.compiled [104] "<foo>")], [], 1⟩

/-- A concrete outer archive with an outer entry named foo followed by
an inner archive that also holds an entry named foo. -/
def cArch10 : CArchive :=
  ⟨pyzFooBytes, 0,
    [⟨0, 0, 0, 0, 'x', "foo"⟩,
     ⟨0, pyzFooBytes.length, pyzFooBytes.length, 0, 'z', "p.pyz"⟩]⟩

/-- A concrete outer archive with one binary entry and one inner archive
entry. -/
def cArch7 : CArchive :=
  ⟨pyzOld ++ [7, 8], 0,
    [⟨9, 2, 2, 1, 'b', "libfoo.so"⟩, ⟨0, 9, 9, 0, 'z', "x.pyz"⟩]⟩

/-- A patch mapping whose only name matches nothing in cArch7. -/
def ghostItems : List (String × Bytes) := [("ghost", [1, 2])]

/-- A concrete outer archive without inner archive entries. -/
def cArchPlain : CArchive :=
  ⟨[5, 6, 7], 0, [⟨0, 3, 3, 1, 'b', "a.bin"⟩, ⟨1, 2, 2, 0, 'x', "b.dat"⟩]⟩

/-- The repack_pyz result on pyzOld with an empty mapping: the file is
rewritten with the current version tag and zero updates are counted. -/
def r5 : PyzRepackResult := ⟨pyzNew, [], 0⟩

/-- A concrete 88 byte executable consisting of exactly one trailer
cookie whose package length field reads ten. -/
def cookieFile : Bytes := List.replicate 8 0 ++ [0, 0, 0, 10] ++ List.replicate 76 0

/-- C2: refuted by the code: build_updated_items builds the name to path
mapping in a local dictionary but has no return statement, so the
resolver returns Python None instead of the mapping; the loop itself
does produce the expected deterministic mapping. -/
theorem C2_resolver_returns_none :
    build_updated_items ["foo.py"] (some 0) = none ∧
    buildItemsLoop ["foo.py"] (some 0) = [("foo", "foo.py")] :=
  ⟨rfl, by decide⟩

/-- C3: counterexample to the literal name derivation cases: with the
given strip values the code derives none of the claimed names. -/
theorem C3_name_derivation_counterexample :
    (buildItem "src/foo.py" (some 0)).1 ≠ "foo" ∧
    (buildItem "reader/__init__.py" (some 0)).1 ≠ "reader" ∧
    (buildItem "../../reader/__init__.py" (some 2)).1 ≠ "reader" :=
  ⟨by decide, by decide, by decide⟩

/-- C3 amended: the names the code actually derives: strip zero keeps
the src component, and because the suffix loop removes ".py" first, a
package init file keeps a trailing "__init__" component. -/
theorem C3_name_derivation_amended :
    (buildItem "src/foo.py" (some 0)).1 = "src.foo" ∧
    (buildItem "reader/__init__.py" (some 0)).1 = "reader.__init__" ∧
    (buildItem "../../reader/__init__.py" (some 2)).1 = "reader.__init__" :=
  ⟨by decide, by decide, by decide⟩

/-- C6: counterexample: an entry with compression flag one that is not
patched is written raw, not deflated, because the writer compresses only
when the flag is set and the entry is patched. -/
theorem C6_compress_flag_counterexample :
    (CArchiveWriter2_add 0 ⟨0, 3, 3, 1, 'b', "a.bin", [1, 2, 3]⟩).bytes = [1, 2, 3] ∧
    ([1, 2, 3] : Bytes) ≠ zlibDeflate [1, 2, 3] :=
  ⟨by decide, by decide⟩

/-- C6 amended: the outer writer deflates the payload exactly when the
compression flag is one and the entry is marked patched; a patched entry
with any other flag value keeps its recomputed data raw, and an
unpatched entry is always stored verbatim, whatever its flag. -/
theorem C6_compress_amended (pos : Nat) (e : AnnEntry) :
    (CArchiveWriter2_add pos e).bytes =
      if e.patched ≠ 0 then
        (if e.flag = 1 then zlibDeflate (patchData e) else patchData e)
      else e.content := by
  unfold CArchiveWriter2_add
  by_cases hp : e.patched ≠ 0
  · by_cases hf : e.flag = 1 <;> simp [hp, hf]
  · simp [hp]

/-- C8: the top level error boundary is itself broken: for an exception
whose first argument is a string, the common case, the guard evaluates
isinstance(str, value.args[0]) with its arguments reversed, raising
TypeError inside the hook, so no single error line is logged and
sys.exit(1) is never reached. -/
theorem C8_excepthook_raises_typeerror :
    excepthook ⟨[PyVal.pstr "apperror"]⟩ = HookOutcome.raisedTypeError ∧
    HookOutcome.raisedTypeError ≠ HookOutcome.logsArgsThenExit1 ∧
    HookOutcome.raisedTypeError ≠ HookOutcome.logsValueThenExit1 :=
  ⟨rfl, by decide, by decide⟩

/-- C9: counterexample: the files positional accepts at most one value,
so a second replacement path is rejected by the argument parser rather
than accepted as part of a list. -/
theorem C9_two_files_rejected :
    mainModel ["dist/app.exe", "foo.py", "bar.py"] =
      MainAction.exitArgError "unrecognized arguments" := by decide

/-- C9 amended: the command line accepts at most one replacement file
path after the executable; when it is omitted the tool lists the archive
contents, and when it is given the patch path is taken (which then
crashes on the missing return of build_updated_items). -/
theorem C9_cli_amended :
    mainModel ["dist/app.exe"] = MainAction.listArchive "dist/app.exe" ∧
    mainModel ["-s", "1", "dist/app.exe"] = MainAction.listArchive "dist/app.exe" ∧
    mainModel ["dist/app.exe", "foo.py"] = MainAction.crashAttributeError "dist/app.exe" :=
  ⟨by decide, by decide, by decide⟩

/-- C10: counterexample: with the single patch name foo bound once, an
outer entry named foo earlier in the table is patched and the name is
not removed, so the entry foo of a later inner archive is patched again:
the name is applied twice in one run. -/
theorem C10_double_application_counterexample :
    (repacker cArch10 items10).map (fun l => l.map AnnEntry.patched) = some [1, 1] := by
  decide

theorem lookupItem_popItem_self (items : List (String × Bytes)) (n : String) :
    lookupItem (popItem items n) n = none := by
  unfold lookupItem popItem
  rw [Option.map_eq_none', List.find?_eq_none]
  intro x hx
  have hkeep := List.of_mem_filter hx
  simpa using hkeep

theorem lookupItem_popItem_none (items : List (String × Bytes)) (m n : String)
    (h : lookupItem items n = none) : lookupItem (popItem items m) n = none := by
  unfold lookupItem popItem at *
  rw [Option.map_eq_none', List.find?_eq_none] at h ⊢
  intro x hx
  exact h x (List.mem_of_mem_filter hx)

theorem repackPyzLoop_preserves_absence :
    ∀ (es : List PyzEntry) (items : List (String × Bytes))
      (tl : List (String × String × CodeObj)) (its : List (String × Bytes)) (u : Nat)
      (n : String),
      repackPyzLoop es items = some (tl, its, u) →
      lookupItem items n = none → lookupItem its n = none := by
  intro es
  induction es with
  | nil =>
    intro items tl its u n h hn
    unfold repackPyzLoop at h
    obtain ⟨_, rfl, _⟩ := by simpa using h
    exact hn
  | cons e rest ih =>
    intro items tl its u n h hn
    unfold repackPyzLoop at h
    cases he : pyzExtract e with
    | none => simp [he] at h
    | some tpair =>
      obtain ⟨typ, obj⟩ := tpair
      simp only [he] at h
      cases hl : lookupItem items e.name with
      | some src =>
        simp only [hl] at h
        cases hr : repackPyzLoop rest (popItem items e.name) with
        | none => simp [hr] at h
        | some t3 =>
          obtain ⟨tl2, its2, u2⟩ := t3
          simp only [hr] at h
          obtain ⟨_, h2, _⟩ := by simpa using h
          rw [← h2]
          exact ih (popItem items e.name) tl2 its2 u2 n hr
            (lookupItem_popItem_none items e.name n hn)
      | none =>
        simp only [hl] at h
        cases hr : repackPyzLoop rest items with
        | none => simp [hr] at h
        | some t3 =>
          obtain ⟨tl2, its2, u2⟩ := t3
          simp only [hr] at h
          obtain ⟨_, h2, _⟩ := by simpa using h
          rw [← h2]
          exact ih items tl2 its2 u2 n hr hn

theorem repackPyzLoop_clears :
    ∀ (es : List PyzEntry) (items : List (String × Bytes))
      (tl : List (String × String × CodeObj)) (its : List (String × Bytes)) (u : Nat),
      repackPyzLoop es items = some (tl, its, u) →
      ∀ e ∈ es, lookupItem its e.name = none := by
  intro es
  induction es with
  | nil => intro items tl its u h e he; exact absurd he (List.not_mem_nil e)
  | cons e rest ih =>
    intro items tl its u h x hx
    unfold repackPyzLoop at h
    cases he : pyzExtract e with
    | none => simp [he] at h
    | some tpair =>
      obtain ⟨typ, obj⟩ := tpair
      simp only [he] at h
      cases hl : lookupItem items e.name with
      | some src =>
        simp only [hl] at h
        cases hr : repackPyzLoop rest (popItem items e.name) with
        | none => simp [hr] at h
        | some t3 =>
          obtain ⟨tl2, its2, u2⟩ := t3
          simp only [hr] at h
          obtain ⟨_, h2, _⟩ := by simpa using h
          rw [← h2]
          rcases List.mem_cons.mp hx with hx1 | hx2
          · rw [hx1]
            exact repackPyzLoop_preserves_absence rest (popItem items e.name)
              tl2 its2 u2 e.name hr (lookupItem_popItem_self items e.name)
          · exact ih (popItem items e.name) tl2 its2 u2 hr x hx2
      | none =>
        simp only [hl] at h
        cases hr : repackPyzLoop rest items with
        | none => simp [hr] at h
        | some t3 =>
          obtain ⟨tl2, its2, u2⟩ := t3
          simp only [hr] at h
          obtain ⟨_, h2, _⟩ := by simpa using h
          rw [← h2]
          rcases List.mem_cons.mp hx with hx1 | hx2
          · rw [hx1]
            exact repackPyzLoop_preserves_absence rest items tl2 its2 u2 e.name hr hl
          · exact ih items tl2 its2 u2 hr x hx2

/-- C5: counterexample: repacking cArchPyz with an empty patch set
rewrites its inner archive (the content changes from pyzOld to pyzNew)
yet the annotated entry carries patched marker zero, so the outer entry
is not marked patched. -/
theorem C5_pyz_always_patched_counterexample :
    repacker cArchPyz [] = some [⟨0, 9, 9, 0, 'z', "x.pyz", pyzNew⟩] ∧
    pyzNew ≠ pyzOld :=
  ⟨by decide, by decide⟩

/-- C1: counterexample: extracting and repacking cArchPyz with an empty
patch set rewrites the inner archive entry, so its stored payload in the
output differs from the original stored bytes (the version tag field
changes), refuting byte for byte equality of every payload. -/
theorem C1_roundtrip_counterexample :
    runRepack cArchPyz [] = some [⟨⟨0, 9, 9, 0, 'z', "x.pyz"⟩, pyzNew⟩] ∧
    pyzNew ≠ readStored cArchPyz pyzTocE :=
  ⟨by decide, by decide⟩

theorem repackPyzLoop_nil_items :
    ∀ (es : List PyzEntry) (tl : List (String × String × CodeObj))
      (its : List (String × Bytes)) (u : Nat),
      repackPyzLoop es [] = some (tl, its, u) → its = [] := by
  intro es
  induction es with
  | nil =>
    intro tl its u h
    unfold repackPyzLoop at h
    injection h with h'
    exact (congrArg (fun t => t.2.1) h').symm
  | cons e rest ih =>
    intro tl its u h
    unfold repackPyzLoop at h
    cases he : pyzExtract e with
    | none => simp [he] at h
    | some tpair =>
      obtain ⟨typ, obj⟩ := tpair
      have hnil : lookupItem ([] : List (String × Bytes)) e.name = none := rfl
      simp only [he, hnil] at h
      cases hr : repackPyzLoop rest [] with
      | none => simp [hr] at h
      | some t3 =>
        obtain ⟨tl2, its2, u2⟩ := t3
        simp only [hr] at h
        obtain ⟨_, h2, _⟩ := by simpa using h
        rw [← h2]
        exact ih tl2 its2 u2 hr

theorem repack_pyz_nil_items (stored : Bytes) (r : PyzRepackResult)
    (hr : repack_pyz stored [] = some r) : r.items = [] := by
  unfold repack_pyz at hr
  cases hd : decodePyz stored with
  | none => simp [hd] at hr
  | some parch =>
    simp only [hd, Option.some_bind] at hr
    cases hl : repackPyzLoop parch.entries [] with
    | none => simp [hl] at hr
    | some t3 =>
      obtain ⟨tl, its, u⟩ := t3
      simp only [hl, Option.map_some'] at hr
      obtain rfl := Option.some.inj hr
      exact repackPyzLoop_nil_items parch.entries tl its u hl

theorem repackPyzLoop_no_match :
    ∀ (es : List PyzEntry) (items : List (String × Bytes)),
      (∀ e ∈ es, lookupItem items e.name = none) →
      repackPyzLoop es items =
        (repackPyzLoop es []).map (fun t3 => (t3.1, items, t3.2.2)) := by
  intro es
  induction es with
  | nil => intro items h; rfl
  | cons e rest ih =>
    intro items h
    have h0 : lookupItem items e.name = none := h e (List.mem_cons_self e rest)
    have ht : ∀ x ∈ rest, lookupItem items x.name = none :=
      fun x hx => h x (List.mem_cons_of_mem e hx)
    have hnil : lookupItem ([] : List (String × Bytes)) e.name = none := rfl
    unfold repackPyzLoop
    cases he : pyzExtract e with
    | none => simp [he]
    | some tpair =>
      obtain ⟨typ, obj⟩ := tpair
      simp only [he, h0, hnil, ih items ht]
      cases hrec : repackPyzLoop rest [] with
      | none => rfl
      | some t3 =>
        obtain ⟨tl, its, u⟩ := t3
        rfl

theorem repack_pyz_no_match (stored : Bytes) (items : List (String × Bytes))
    (h : ∀ n ∈ pyzNamesOf stored, lookupItem items n = none) :
    repack_pyz stored items =
      (repack_pyz stored []).map (fun r => ⟨r.fileBytes, items, r.updated⟩) := by
  unfold repack_pyz
  cases hd : decodePyz stored with
  | none => rfl
  | some parch =>
    have hent : ∀ e ∈ parch.entries, lookupItem items e.name = none := by
      intro e he
      apply h
      simp only [pyzNamesOf, hd]
      exact List.mem_map_of_mem _ he
    simp only [Option.some_bind]
    rw [repackPyzLoop_no_match parch.entries items hent]
    cases hrec : repackPyzLoop parch.entries [] with
    | none => rfl
    | some t3 =>
      obtain ⟨tl, its, u⟩ := t3
      rfl

theorem repackerLoop_no_match (a : CArchive) :
    ∀ (toc : List TocEntry) (items : List (String × Bytes)),
      (∀ e ∈ toc, lookupItem items e.nm = none) →
      (∀ e ∈ toc, ∀ n ∈ pyzNamesOf (readStored a e), lookupItem items n = none) →
      repackerLoop a toc items = repackerLoop a toc [] := by
  intro toc
  induction toc with
  | nil => intro items h1 h2; rfl
  | cons e rest ih =>
    intro items h1 h2
    have h1t : ∀ x ∈ rest, lookupItem items x.nm = none :=
      fun x hx => h1 x (List.mem_cons_of_mem e hx)
    have h2t : ∀ x ∈ rest, ∀ n ∈ pyzNamesOf (readStored a x), lookupItem items n = none :=
      fun x hx => h2 x (List.mem_cons_of_mem e hx)
    unfold repackerLoop
    cases hp : isPyzEntry e with
    | false =>
      have h1h := h1 e (List.mem_cons_self e rest)
      have hnil : lookupItem ([] : List (String × Bytes)) e.nm = none := rfl
      simp [hp, h1h, hnil, ih items h1t h2t]
    | true =>
      have h2h := h2 e (List.mem_cons_self e rest)
      have hmap := repack_pyz_no_match (readStored a e) items h2h
      simp only [hp, if_true]
      cases hrec : repack_pyz (readStored a e) [] with
      | none =>
        rw [hrec] at hmap
        simp only [Option.map_none'] at hmap
        simp [hmap]
      | some r0 =>
        rw [hrec] at hmap
        simp only [Option.map_some'] at hmap
        have h0 : r0.items = [] := repack_pyz_nil_items (readStored a e) r0 hrec
        simp only [hmap, h0, ih items h1t h2t]

/-- C7: a patch set none of whose names matches any outer entry name or
any entry name of any inner archive in the table leaves the repack
pipeline output exactly equal to that of an empty patch set: the run
succeeds or fails identically and all written entries coincide. -/
theorem C7_unmatched_no_effect (a : CArchive) (items : List (String × Bytes))
    (houter : ∀ e ∈ a.toc, lookupItem items e.nm = none)
    (hinner : ∀ e ∈ a.toc, ∀ n ∈ pyzNamesOf (readStored a e), lookupItem items n = none) :
    runRepack a items = runRepack a [] := by
  unfold runRepack repacker
  rw [repackerLoop_no_match a a.toc items houter hinner]

/-- C7 witness: a concrete archive and a concrete one name patch set
matching nothing. -/
theorem C7_unmatched_no_effect_witness :
    (∀ e ∈ cArch7.toc, lookupItem ghostItems e.nm = none) ∧
    (∀ e ∈ cArch7.toc, ∀ n ∈ pyzNamesOf (readStored cArch7 e),
      lookupItem ghostItems n = none) ∧
    runRepack cArch7 ghostItems = runRepack cArch7 [] :=
  ⟨by decide, by decide,
    C7_unmatched_no_effect cArch7 ghostItems (by decide) (by decide)⟩

/-- C10 amended: every name occurring in a nested inner archive is
absent from the patch mapping returned by repack_pyz, because a matched
name is popped from the shared mapping, so a name replaced inside an
inner container is never applied to an entry processed later; a name
matched to an outer entry, by contrast, is not removed, so it can be
applied again to a later inner container. -/
theorem C10_inner_matched_names_removed (stored : Bytes)
    (items : List (String × Bytes)) (r : PyzRepackResult)
    (hr : repack_pyz stored items = some r) :
    ∀ n ∈ pyzNamesOf stored, lookupItem r.items n = none := by
  intro n hn
  unfold repack_pyz at hr
  cases hd : decodePyz stored with
  | none => simp [hd] at hr
  | some parch =>
    simp only [hd, Option.some_bind] at hr
    cases hl : repackPyzLoop parch.entries items with
    | none => simp [hl] at hr
    | some t3 =>
      obtain ⟨tl, its, u⟩ := t3
      simp only [hl, Option.map_some'] at hr
      obtain rfl := Option.some.inj hr
      simp only [pyzNamesOf, hd] at hn
      obtain ⟨e, he, hne⟩ := List.mem_map.mp hn
      rw [← hne]
      exact repackPyzLoop_clears parch.entries items tl its u hl e he

/-- C10 witness: the inner entry foo is matched and the returned mapping
no longer binds any inner name. -/
theorem C10_inner_matched_names_removed_witness :
    repack_pyz pyzFooBytes items10 = some r10 ∧
    (∀ n ∈ pyzNamesOf pyzFooBytes, lookupItem r10.items n = none) :=
  ⟨by decide, C10_inner_matched_names_removed pyzFooBytes items10 r10 (by decide)⟩

/-- C5 amended: for an inner archive entry at the head of the table, the
patched marker of its annotated entry is exactly the update count
returned by repack_pyz and its content is the rewritten archive: the
outer entry counts as patched exactly when at least one inner entry was
replaced, not whenever the inner archive was rewritten. -/
theorem C5_pyz_patched_iff_updated (a : CArchive) (e : TocEntry) (rest : List TocEntry)
    (items : List (String × Bytes)) (r : PyzRepackResult)
    (h : a.toc = e :: rest) (hp : isPyzEntry e = true)
    (hr : repack_pyz (readStored a e) items = some r) :
    repacker a items = (repackerLoop a rest r.items).map
      (fun l => ⟨r.updated, e.dlen, e.ulen, e.flag, e.typcd, e.nm, r.fileBytes⟩ :: l) := by
  unfold repacker
  rw [h]
  simp only [repackerLoop]
  rw [if_pos hp]
  simp only [hr]
  cases hx : repackerLoop a rest r.items with
  | none => rfl
  | some l => rfl

/-- C5 witness: cArchPyz with the empty patch set: zero updates and the
rewritten file bytes appear in the annotated head entry. -/
theorem C5_pyz_patched_iff_updated_witness :
    cArchPyz.toc = pyzTocE :: [] ∧ isPyzEntry pyzTocE = true ∧
    repack_pyz (readStored cArchPyz pyzTocE) [] = some r5 ∧
    repacker cArchPyz [] = (repackerLoop cArchPyz [] []).map
      (fun l => ⟨r5.updated, pyzTocE.dlen, pyzTocE.ulen, pyzTocE.flag,
        pyzTocE.typcd, pyzTocE.nm, r5.fileBytes⟩ :: l) :=
  ⟨rfl, by decide, by decide,
    C5_pyz_patched_iff_updated cArchPyz pyzTocE [] [] r5 rfl (by decide) (by decide)⟩

theorem repackerLoop_empty_items (a : CArchive) :
    ∀ (toc : List TocEntry),
      (∀ e ∈ toc, isPyzEntry e = false) →
      repackerLoop a toc [] =
        some (toc.map fun e => ⟨0, e.dlen, e.ulen, e.flag, e.typcd, e.nm, readStored a e⟩) := by
  intro toc
  induction toc with
  | nil => intro h; rfl
  | cons e rest ih =>
    intro h
    have hp := h e (List.mem_cons_self e rest)
    have ht : ∀ x ∈ rest, isPyzEntry x = false :=
      fun x hx => h x (List.mem_cons_of_mem e hx)
    have hnil : lookupItem ([] : List (String × Bytes)) e.nm = none := rfl
    unfold repackerLoop
    simp [hp, hnil, ih ht]

theorem carchiveWrite_unpatched (a : CArchive) :
    ∀ (toc : List TocEntry) (pos : Nat),
      List.Forall₂ (fun (e : TocEntry) (w : WrittenEntry) =>
          w.toce.nm = e.nm ∧ w.toce.typcd = e.typcd ∧ w.toce.ulen = e.ulen ∧
          w.toce.flag = e.flag ∧ w.bytes = readStored a e)
        toc
        (carchiveWrite pos (toc.map fun e =>
          ⟨0, e.dlen, e.ulen, e.flag, e.typcd, e.nm, readStored a e⟩)) := by
  intro toc
  induction toc with
  | nil => intro pos; exact List.Forall₂.nil
  | cons e rest ih =>
    intro pos
    simp only [List.map_cons]
    unfold carchiveWrite
    refine List.Forall₂.cons ?_ (ih _)
    unfold CArchiveWriter2_add
    simp

/-- C1 amended: for every archive with no inner archive entries,
repacking with the empty patch set succeeds and yields entries whose
names, type codes, compression flags and uncompressed lengths are
unchanged and whose stored payloads are the original stored bytes
verbatim, so the decompressed payloads also coincide; an inner archive
entry, by contrast, is rewritten by repack_pyz even with an empty patch
set and its payload can change. -/
theorem C1_roundtrip_amended (a : CArchive)
    (h : ∀ e ∈ a.toc, isPyzEntry e = false) :
    ∃ ws, runRepack a [] = some ws ∧
      List.Forall₂ (fun (e : TocEntry) (w : WrittenEntry) =>
        w.toce.nm = e.nm ∧ w.toce.typcd = e.typcd ∧ w.toce.ulen = e.ulen ∧
        w.toce.flag = e.flag ∧ w.bytes = readStored a e) a.toc ws := by
  refine ⟨_, ?_, carchiveWrite_unpatched a a.toc 0⟩
  unfold runRepack repacker
  rw [repackerLoop_empty_items a a.toc h]

/-- C1 witness: a concrete archive without inner archive entries. -/
theorem C1_roundtrip_amended_witness :
    (∀ e ∈ cArchPlain.toc, isPyzEntry e = false) ∧
    (∃ ws, runRepack cArchPlain [] = some ws ∧
      List.Forall₂ (fun (e : TocEntry) (w : WrittenEntry) =>
        w.toce.nm = e.nm ∧ w.toce.typcd = e.typcd ∧ w.toce.ulen = e.ulen ∧
        w.toce.flag = e.flag ∧ w.bytes = readStored cArchPlain e) cArchPlain.toc ws) :=
  ⟨by decide, C1_roundtrip_amended cArchPlain (by decide)⟩

/-- C4: splice correctness: when the trailer yields package start
position pos (file size minus the decoded package length) and the splice
succeeds, every output byte below pos equals the corresponding byte of
the original executable and the output length is exactly pos plus the
length of the new package. -/
theorem C4_splice_correctness (orig pkg : Bytes) (pos : Int) (nm : Bytes) (out : Bytes)
    (hinfo : get_carchive_info orig = some (pos, nm))
    (hpos : pos ≤ (orig.length : Int))
    (hout : repack_exe_splice orig pkg = some out) :
    (∀ i < pos.toNat, out[i]? = orig[i]?) ∧ out.length = pos.toNat + pkg.length := by
  unfold repack_exe_splice at hout
  simp only [hinfo] at hout
  by_cases h0 : (0 : Int) ≤ pos
  · simp only [h0, if_true] at hout
    have hle : pos.toNat ≤ orig.length := Int.toNat_le.mpr hpos
    have hrep : pos.toNat - orig.length = 0 := Nat.sub_eq_zero_of_le hle
    rw [hrep] at hout
    simp only [List.replicate_zero, List.append_nil] at hout
    obtain rfl := Option.some.inj hout
    constructor
    · intro i hi
      have hlt : i < (orig.take pos.toNat).length := by
        rw [List.length_take]
        exact lt_min hi (lt_of_lt_of_le hi hle)
      rw [List.getElem?_append_left hlt]
      exact List.getElem?_take_of_lt hi
    · rw [List.length_append, List.length_take, Nat.min_eq_left hle]
  · simp only [h0, if_false] at hout
    exact absurd hout (by simp)

/-- C4 witness: an 88 byte file whose cookie declares package length
ten, spliced with a three byte package. -/
theorem C4_splice_correctness_witness :
    get_carchive_info cookieFile = some (78, List.replicate 64 0) ∧
    (78 : Int) ≤ (cookieFile.length : Int) ∧
    repack_exe_splice cookieFile [1, 2, 3] = some (cookieFile.take 78 ++ [1, 2, 3]) ∧
    (∀ i < (78 : Int).toNat, (cookieFile.take 78 ++ [1, 2, 3])[i]? = cookieFile[i]?) ∧
    (cookieFile.take 78 ++ [1, 2, 3]).length = (78 : Int).toNat + 3 := by
  refine ⟨by decide, by decide, by decide, ?_⟩
  exact C4_splice_correctness cookieFile [1, 2, 3] 78 (List.replicate 64 0)
    (cookieFile.take 78 ++ [1, 2, 3]) (by decide) (by decide) (by decide)

end Pyinstailor
